import Mathlib

/-!
Shallow embedding of `static/js/admin-overrides.js`.

The script registers two `DOMContentLoaded` handlers.  Each handler, inside a
`try { ... } catch (e) { console.warn('Sidebar customization failed', e) }`
block, iterates over `document.querySelectorAll('.nav-sidebar a')` and, for
every anchor whose `textContent.trim().toLowerCase()` equals one of a fixed
set of labels (`'dashboard'`/`'groups'` for the first handler, `'dashboard'`
for the second), removes `a.closest('li')` when that lookup succeeds.  The
first handler additionally locates an "Exams" section header and defines an
`addItem` helper that is never called.

We model the DOM as a tree of elements and text nodes.  Elements carry a
numeric `id` that models DOM node identity (JavaScript object identity); no
operation of the script reads or writes it.  Attributes other than the class
list are not modelled: the script only reads `classList`/class selectors and
`textContent` (the `href` built by the dead `addItem` helper is unused).

The `forEach` loop runs over a static `NodeList` snapshot.  Removing a list
item detaches a whole subtree; a later anchor inside a detached subtree still
has a `closest('li')`, but removing that detached item does not change the
document.  Because `querySelectorAll` returns document order (ancestors before
descendants), every anchor still attached at its turn has its original
ancestor chain and its original `textContent`.  The net effect on the document
is therefore: every `li` that is the nearest `li` ancestor of some matching
sidebar anchor of the original document is removed, together with its subtree.
`prune`/`pruneList` below computes exactly that in one structural pass.
-/

mutual
/-- A DOM node: a text node, or an element with an identity, a tag name,
a class list and children. -/
inductive Node where
  | text (s : String)
  | elem (id : Nat) (tag : String) (classes : List String) (children : NodeList)
deriving DecidableEq

/-- A list of sibling DOM nodes. -/
inductive NodeList where
  | nil
  | cons (hd : Node) (tl : NodeList)
deriving DecidableEq
end

/-- A document is the list of top-level nodes. -/
abbrev Doc := NodeList

/-- Whitespace removed by JavaScript `String.prototype.trim`. -/
def isWS (c : Char) : Bool := c == ' ' || c == '\t' || c == '\n' || c == '\r'

/-- JavaScript `s.trim()`: strip leading and trailing whitespace. -/
def jsTrim (s : String) : String :=
  ⟨((s.data.dropWhile isWS).reverse.dropWhile isWS).reverse⟩

/-- JavaScript `s.toLowerCase()` (the labels involved are ASCII). -/
def jsToLower (s : String) : String := ⟨s.data.map Char.toLower⟩

/-- JavaScript `s.trim().toLowerCase()` as used on every anchor text. -/
def normText (s : String) : String := jsToLower (jsTrim s)

/-- Labels matched by the first handler (`t === 'dashboard' || t === 'groups'`). -/
def labels1 : List String := ["dashboard", "groups"]

/-- Labels matched by the second handler (`t === 'dashboard'`). -/
def labels2 : List String := ["dashboard"]

/-- `n.classList.contains c` (false on text nodes). -/
def hasClass : Node → String → Bool
  | .text _, _ => false
  | .elem _ _ cls _, c => cls.contains c

/-- Is this node an element (as opposed to a text node)? -/
def isElem : Node → Bool
  | .text _ => false
  | .elem _ _ _ _ => true

mutual
/-- `n.textContent`: concatenation of all descendant text, in document order. -/
def textContent : Node → String
  | .text s => s
  | .elem _ _ _ ch => textContentList ch

def textContentList : NodeList → String
  | .nil => ""
  | .cons h t => textContent h ++ textContentList t
end

mutual
/-- Does `n` itself, or a descendant reachable without crossing an `li`
below `n`, form a matching sidebar anchor?  `sb` says whether some proper
ancestor of `n` carries the `nav-sidebar` class (so that the anchor matches
the selector `.nav-sidebar a`).  An `li` node blocks descent because the
anchors below it have that nearer `li` as their `closest('li')`. -/
def anchorHit (labels : List String) (sb : Bool) : Node → Bool
  | .text _ => false
  | .elem _ tag cls ch =>
      (tag == "a" && sb && labels.contains (normText (textContentList ch)))
      || (tag != "li" && anchorHitList labels (sb || cls.contains "nav-sidebar") ch)

def anchorHitList (labels : List String) (sb : Bool) : NodeList → Bool
  | .nil => false
  | .cons h t => anchorHit labels sb h || anchorHitList labels sb t
end

mutual
/-- Does the subtree of `n` contain any matching sidebar anchor at all
(crossing `li` boundaries freely)?  `sb` as in `anchorHit`. -/
def hasMatch (labels : List String) (sb : Bool) : Node → Bool
  | .text _ => false
  | .elem _ tag cls ch =>
      (tag == "a" && sb && labels.contains (normText (textContentList ch)))
      || hasMatchList labels (sb || cls.contains "nav-sidebar") ch

def hasMatchList (labels : List String) (sb : Bool) : NodeList → Bool
  | .nil => false
  | .cons h t => hasMatch labels sb h || hasMatchList labels sb t
end

mutual
/-- The effect of one handler's removal loop on the document: an `li` whose
children reach a matching sidebar anchor without an intervening `li` is the
`closest('li')` of that anchor and is removed with its whole subtree;
everything else is kept, with the loop applied below. -/
def prune (labels : List String) (sb : Bool) : Node → Option Node
  | .text s => some (.text s)
  | .elem i tag cls ch =>
      if tag == "li" && anchorHitList labels (sb || cls.contains "nav-sidebar") ch then
        none
      else
        some (.elem i tag cls (pruneList labels (sb || cls.contains "nav-sidebar") ch))

def pruneList (labels : List String) (sb : Bool) : NodeList → NodeList
  | .nil => .nil
  | .cons h t =>
      match prune labels sb h with
      | none => pruneList labels sb t
      | some h' => .cons h' (pruneList labels sb t)
end

mutual
/-- Does a node with identity `i` occur in this tree? -/
def occursId (i : Nat) : Node → Bool
  | .text _ => false
  | .elem j _ _ ch => j == i || occursIdList i ch

def occursIdList (i : Nat) : NodeList → Bool
  | .nil => false
  | .cons h t => occursId i h || occursIdList i t
end

mutual
/-- All element identities of a tree. -/
def allIds : Node → List Nat
  | .text _ => []
  | .elem j _ _ ch => j :: allIdsList ch

def allIdsList : NodeList → List Nat
  | .nil => []
  | .cons h t => allIds h ++ allIdsList t
end

mutual
/-- Identities of the `li` elements that are the `closest('li')` of some
matching sidebar anchor — the elements the handler removes. -/
def killerIds (labels : List String) (sb : Bool) : Node → List Nat
  | .text _ => []
  | .elem j tag cls ch =>
      (if tag == "li" && anchorHitList labels (sb || cls.contains "nav-sidebar") ch
       then [j] else [])
      ++ killerIdsList labels (sb || cls.contains "nav-sidebar") ch

def killerIdsList (labels : List String) (sb : Bool) : NodeList → List Nat
  | .nil => []
  | .cons h t => killerIds labels sb h ++ killerIdsList labels sb t
end

mutual
/-- Identities of every node inside (or equal to) a removed `li`: the part of
the document that disappears. -/
def doomedIds (labels : List String) (sb : Bool) : Node → List Nat
  | .text _ => []
  | .elem j tag cls ch =>
      if tag == "li" && anchorHitList labels (sb || cls.contains "nav-sidebar") ch then
        j :: allIdsList ch
      else
        doomedIdsList labels (sb || cls.contains "nav-sidebar") ch

def doomedIdsList (labels : List String) (sb : Bool) : NodeList → List Nat
  | .nil => []
  | .cons h t => doomedIds labels sb h ++ doomedIdsList labels sb t
end

/-- The first element of a sibling list in left-to-right order, skipping text
nodes: `header.nextElementSibling` applied to the siblings after the header. -/
def nextElem : NodeList → Option Node
  | .nil => none
  | .cons h t => if isElem h then some h else nextElem t

mutual
/-- `document.querySelector('.nav-sidebar')`: the first element, in document
(pre-)order, whose class list contains `nav-sidebar`. -/
def firstNavSidebarNode : Node → Option Node
  | .text _ => none
  | .elem i tag cls ch =>
      match cls.contains "nav-sidebar" with
      | true => some (.elem i tag cls ch)
      | false => firstNavSidebarList ch

def firstNavSidebarList : NodeList → Option Node
  | .nil => none
  | .cons h t =>
      match firstNavSidebarNode h with
      | some n => some n
      | none => firstNavSidebarList t
end

/-- The test applied by
`Array.from(document.querySelectorAll('.nav-sidebar .nav-header')).find(h => h.textContent.trim().toLowerCase() === 'exams')`:
an element carrying class `nav-header`, lying under a `.nav-sidebar` ancestor
(`sb`), whose normalized text is `"exams"`. -/
def isExamsHeader (sb : Bool) : Node → Bool
  | .text _ => false
  | .elem _ _ cls ch =>
      sb && cls.contains "nav-header" && normText (textContentList ch) == "exams"

mutual
/-- Document-order search for the first exams header; when found, returns
`some s` where `s` is that header's `nextElementSibling` (an `Option Node`).
Fusing `querySelectorAll` with `.find` is sound because `querySelectorAll`
returns document order, so `.find` picks the first such header in pre-order. -/
def findExamsNode (sb : Bool) : Node → Option (Option Node)
  | .text _ => none
  | .elem _ _ cls ch => findExamsList (sb || cls.contains "nav-sidebar") ch

def findExamsList (sb : Bool) : NodeList → Option (Option Node)
  | .nil => none
  | .cons h t =>
      if isExamsHeader sb h then some (nextElem t)
      else
        match findExamsNode sb h with
        | some r => some r
        | none => findExamsList sb t
end

/-- Lines 13–19 of the script:
`let ul = examsHeader ? examsHeader.nextElementSibling : null;
if (!ul || !ul.classList.contains('nav-treeview')) ul = document.querySelector('.nav-sidebar');` -/
def locateUL (doc : Doc) : Option Node :=
  let ul0 : Option Node :=
    match findExamsList false doc with
    | some sib => sib
    | none => none
  match ul0 with
  | some u => if hasClass u "nav-treeview" then some u else firstNavSidebarList doc
  | none => firstNavSidebarList doc

/-- Concatenation of sibling lists. -/
def nlAppend : NodeList → NodeList → NodeList
  | .nil, ys => ys
  | .cons h t, ys => .cons h (nlAppend t ys)

/-- Append a node to an element's children (models `ul.appendChild(li)`;
identity on text nodes, which never occurs in the script). -/
def appendChild : Node → Node → Node
  | .text s, _ => .text s
  | .elem i tag cls ch, c => .elem i tag cls (nlAppend ch (.cons c .nil))

/-- The `addItem(text, href, icon)` helper of the first handler: builds
`li.nav-item` wrapping `a.nav-link` with an icon and a label, and appends it
to the located `ul`.  `href` is a plain attribute on the anchor; attributes
are not part of the node model, so only its structure is built.  `newId`
stands for the fresh identity `document.createElement` produces.  The script
defines this function but never calls it. -/
def addItem (ul : Node) (newId : Nat) (txt : String) (icon : String) : Node :=
  appendChild ul
    (.elem newId "li" ["nav-item"]
      (.cons (.elem (newId + 1) "a" ["nav-link"]
        (.cons (.elem (newId + 2) "i" ["nav-icon", icon] .nil)
          (.cons (.elem (newId + 3) "p" [] (.cons (.text txt) .nil)) .nil))) .nil))

/-- The single error kind: a caught DOM exception (`catch (e)`). -/
inductive DomError where
  | mk (msg : String)
deriving DecidableEq

/-- Observable outcome of running a handler (or the whole script): the final
document, the `console.warn` messages emitted, and whether an exception
escaped to the caller. -/
structure RunResult where
  doc : Doc
  warnings : List String
  raised : Bool
deriving DecidableEq

/-- The message of `console.warn('Sidebar customization failed', e)`. -/
def warnMsg : String := "Sidebar customization failed"

/-- `try { body } catch (e) { console.warn('Sidebar customization failed', e) }`:
a successful body yields its document and no warning; a thrown error is
caught (never re-raised) and logged.  `fallbackDoc` is the document the
caller sees when the body threw; every DOM operation the bodies below use is
total, so that branch is never exercised. -/
def tryCatchWarn (fallbackDoc : Doc) (body : Except DomError Doc) : RunResult :=
  match body with
  | .ok d => ⟨d, [], false⟩
  | .error _ => ⟨fallbackDoc, [warnMsg], false⟩

/-- The `try` body of the first handler: the removal loop over
`'.nav-sidebar a'` with labels `dashboard`/`groups`, then the (side-effect
free) location of the Exams `ul`; `addItem` is defined but never invoked, so
the body returns the pruned document.  `querySelectorAll`, `textContent`,
`closest` and `remove` are total, hence the body never throws. -/
def body1 (doc : Doc) : Except DomError Doc :=
  let d := pruneList labels1 false doc
  let _ul := locateUL d
  Except.ok d

/-- The first `DOMContentLoaded` handler (lines 1–37). -/
def handler1 (doc : Doc) : RunResult := tryCatchWarn doc (body1 doc)

/-- Modelled from the spec: the first handler with the dead code removed
("this helper is defined but never invoked"), i.e. the same script without
the `addItem` definition and the section-locator statements. -/
def body1WithoutDeadCode (doc : Doc) : Except DomError Doc :=
  Except.ok (pruneList labels1 false doc)

/-- Modelled from the spec: `handler1` minus the dead section-locator and
`addItem` code. -/
def handler1WithoutDeadCode (doc : Doc) : RunResult :=
  tryCatchWarn doc (body1WithoutDeadCode doc)

/-- The `try` body of the second handler: the removal loop with the single
label `dashboard`. -/
def body2 (doc : Doc) : Except DomError Doc :=
  Except.ok (pruneList labels2 false doc)

/-- The second `DOMContentLoaded` handler (lines 38–51). -/
def handler2 (doc : Doc) : RunResult := tryCatchWarn doc (body2 doc)

/-- One `DOMContentLoaded` dispatch: the two registered listeners run once
each, in registration order, over the shared document. -/
def runScript (doc : Doc) : RunResult :=
  let r1 := handler1 doc
  let r2 := handler2 r1.doc
  ⟨r2.doc, r1.warnings ++ r2.warnings, r1.raised || r2.raised⟩

/-- Modelled from the spec: the whole script with the dead code removed. -/
def runScriptWithoutDeadCode (doc : Doc) : RunResult :=
  let r1 := handler1WithoutDeadCode doc
  let r2 := handler2 r1.doc
  ⟨r2.doc, r1.warnings ++ r2.warnings, r1.raised || r2.raised⟩

/-- A flat sidebar item `li.nav-item > a.nav-link > text`, as in the
AdminLTE markup the script targets.  Identities are irrelevant here and set
to `0`. -/
def mkItem (t : String) : Node :=
  .elem 0 "li" ["nav-item"] (.cons (.elem 0 "a" ["nav-link"] (.cons (.text t) .nil)) .nil)

/-- The children of a flat sidebar, one item per label. -/
def mkItems : List String → NodeList
  | [] => .nil
  | t :: ts => .cons (mkItem t) (mkItems ts)

/-- A flat sidebar `ul.nav-sidebar` whose items carry the given anchor
texts. -/
def flatSidebar (items : List String) : Node :=
  .elem 0 "ul" ["nav-sidebar"] (mkItems items)

/-- The document consisting of a single flat sidebar. -/
def flatDoc (items : List String) : Doc := .cons (flatSidebar items) .nil

mutual
/-- The removal loop finds nothing to remove in this subtree: no `li` is the
`closest('li')` of a matching sidebar anchor. -/
def clean (labels : List String) (sb : Bool) : Node → Bool
  | .text _ => true
  | .elem _ tag cls ch =>
      !(tag == "li" && anchorHitList labels (sb || cls.contains "nav-sidebar") ch)
      && cleanList labels (sb || cls.contains "nav-sidebar") ch

def cleanList (labels : List String) (sb : Bool) : NodeList → Bool
  | .nil => true
  | .cons h t => clean labels sb h && cleanList labels sb t
end

/-- `occursId` lifted to the optional result of `prune`. -/
def occursIdOpt (i : Nat) : Option Node → Bool
  | none => false
  | some n => occursId i n

/-- A section header `li.nav-header` carrying the given label text. -/
def mkHeader (i : Nat) (s : String) : Node :=
  .elem i "li" ["nav-header"] (.cons (.text s) .nil)

/-- A sidebar whose children are `pre`, then a header with text `hs`, then a
sibling `sib`, then `post`. -/
def sidebarRoot (pre : NodeList) (hs : String) (i : Nat) (sib : Node) (post : NodeList) : Node :=
  .elem 1 "ul" ["nav-sidebar"] (nlAppend pre (.cons (mkHeader i hs) (.cons sib post)))

/-- A document holding only `sidebarRoot pre hs i sib post`. -/
def sidebarDoc (pre : NodeList) (hs : String) (i : Nat) (sib : Node) (post : NodeList) : Doc :=
  .cons (sidebarRoot pre hs i sib post) .nil

/-- A sidebar item nested inside another item: `li#2` directly holds the
matching anchor `a#3` ("Dashboard") and also a nested `ul.nav-treeview` with
the non-matching "Reports" item `li#5` wrapping `a#6` — the AdminLTE
tree-view shape. -/
def exDoc1 : Doc :=
  .cons (.elem 1 "ul" ["nav-sidebar"]
    (.cons (.elem 2 "li" []
      (.cons (.elem 3 "a" [] (.cons (.text "Dashboard") .nil))
        (.cons (.elem 4 "ul" ["nav-treeview"]
          (.cons (.elem 5 "li" [] (.cons (.elem 6 "a" [] (.cons (.text "Reports") .nil)) .nil))
            .nil)) .nil))) .nil)) .nil

/-- A flat sidebar with distinct identities: item `li#2` ("Dashboard",
matching) and item `li#4` ("Reports", not matching). -/
def exDoc1w : Doc :=
  .cons (.elem 1 "ul" ["nav-sidebar"]
    (.cons (.elem 2 "li" [] (.cons (.elem 3 "a" [] (.cons (.text "Dashboard") .nil)) .nil))
      (.cons (.elem 4 "li" [] (.cons (.elem 5 "a" [] (.cons (.text "Reports") .nil)) .nil))
        .nil))) .nil

/-- A matching sidebar anchor with no enclosing `li` at all. -/
def exDoc2 : Doc :=
  .cons (.elem 1 "div" ["nav-sidebar"]
    (.cons (.elem 2 "a" [] (.cons (.text "dashboard") .nil)) .nil)) .nil

/-- A document with no `.nav-sidebar` element anywhere. -/
def exDoc3 : Doc :=
  .cons (.elem 1 "body" []
    (.cons (.elem 2 "div" [] (.cons (.text "hi") .nil)) .nil)) .nil

/-- A matching anchor (`a#5`, "groups") whose `li#4` sits inside the text of
the outer anchor `a#3`: removing `li#4` changes the outer anchor's
`textContent` from "Dashboardgroups" to "Dashboard". -/
def exDoc4 : Doc :=
  .cons (.elem 1 "ul" ["nav-sidebar"]
    (.cons (.elem 2 "li" []
      (.cons (.elem 3 "a" []
        (.cons (.text "Dashboard")
          (.cons (.elem 4 "li" []
            (.cons (.elem 5 "a" [] (.cons (.text "groups") .nil)) .nil)) .nil))) .nil))
      .nil)) .nil

/-- A matching sidebar anchor ("Groups") without any `li` ancestor. -/
def exDoc10 : Doc :=
  .cons (.elem 1 "nav" ["nav-sidebar"]
    (.cons (.elem 2 "a" [] (.cons (.text "Groups") .nil)) .nil)) .nil

/-- Every label of the second handler is a label of the first. -/
theorem labels2_sub : ∀ s : String, labels2.contains s = true → labels1.contains s = true := by
  intro s h
  simp only [labels2, labels1, List.contains, List.elem] at h ⊢
  rcases Bool.or_eq_true_iff.mp h with h1 | h1
  · simp [h1]
  · simp at h1

mutual
/-- A hit for a smaller label set is a hit for a larger one. -/
theorem anchorHit_mono (l1 l2 : List String)
    (hsub : ∀ s, l2.contains s = true → l1.contains s = true) :
    ∀ (sb : Bool) (n : Node), anchorHit l2 sb n = true → anchorHit l1 sb n = true
  | sb, .text _, h => by simp [anchorHit] at h
  | sb, .elem i tag cls ch, h => by
      simp only [anchorHit, Bool.or_eq_true, Bool.and_eq_true] at h ⊢
      rcases h with ⟨⟨h1, h2⟩, h3⟩ | ⟨h1, h2⟩
      · exact Or.inl ⟨⟨h1, h2⟩, hsub _ h3⟩
      · exact Or.inr ⟨h1, anchorHitList_mono l1 l2 hsub _ ch h2⟩

theorem anchorHitList_mono (l1 l2 : List String)
    (hsub : ∀ s, l2.contains s = true → l1.contains s = true) :
    ∀ (sb : Bool) (l : NodeList), anchorHitList l2 sb l = true → anchorHitList l1 sb l = true
  | sb, .nil, h => by simp [anchorHitList] at h
  | sb, .cons hd tl, h => by
      simp only [anchorHitList, Bool.or_eq_true] at h ⊢
      rcases h with h1 | h1
      · exact Or.inl (anchorHit_mono l1 l2 hsub sb hd h1)
      · exact Or.inr (anchorHitList_mono l1 l2 hsub sb tl h1)
end

mutual
/-- A subtree that is clean for a label set is clean for any smaller one. -/
theorem clean_mono (l1 l2 : List String)
    (hsub : ∀ s, l2.contains s = true → l1.contains s = true) :
    ∀ (sb : Bool) (n : Node), clean l1 sb n = true → clean l2 sb n = true
  | sb, .text _, h => by simp [clean]
  | sb, .elem i tag cls ch, h => by
      simp only [clean, Bool.and_eq_true, Bool.not_eq_true'] at h ⊢
      refine ⟨?_, cleanList_mono l1 l2 hsub _ ch h.2⟩
      rcases Bool.eq_false_iff.mp h.1 with h1
      apply Bool.eq_false_iff.mpr
      intro hc
      apply h1
      simp only [Bool.and_eq_true] at hc ⊢
      exact ⟨hc.1, anchorHitList_mono l1 l2 hsub _ ch hc.2⟩

theorem cleanList_mono (l1 l2 : List String)
    (hsub : ∀ s, l2.contains s = true → l1.contains s = true) :
    ∀ (sb : Bool) (l : NodeList), cleanList l1 sb l = true → cleanList l2 sb l = true
  | sb, .nil, h => by simp [cleanList]
  | sb, .cons hd tl, h => by
      simp only [cleanList, Bool.and_eq_true] at h ⊢
      exact ⟨clean_mono l1 l2 hsub sb hd h.1, cleanList_mono l1 l2 hsub sb tl h.2⟩
end

mutual
/-- On a clean subtree the removal loop is the identity. -/
theorem prune_of_clean (labels : List String) :
    ∀ (sb : Bool) (n : Node), clean labels sb n = true → prune labels sb n = some n
  | sb, .text s, _ => by simp [prune]
  | sb, .elem i tag cls ch, h => by
      simp only [clean, Bool.and_eq_true, Bool.not_eq_true'] at h
      simp only [prune, h.1, if_false, Bool.false_eq_true]
      rw [pruneList_of_clean labels _ ch h.2]

theorem pruneList_of_clean (labels : List String) :
    ∀ (sb : Bool) (l : NodeList), cleanList labels sb l = true → pruneList labels sb l = l
  | sb, .nil, _ => by simp [pruneList]
  | sb, .cons hd tl, h => by
      simp only [cleanList, Bool.and_eq_true] at h
      simp only [pruneList, prune_of_clean labels sb hd h.1,
        pruneList_of_clean labels sb tl h.2]
end

mutual
/-- An anchor reachable without crossing an `li` is in particular a matching
anchor of the subtree. -/
theorem hasMatch_of_anchorHit (labels : List String) :
    ∀ (sb : Bool) (n : Node), anchorHit labels sb n = true → hasMatch labels sb n = true
  | sb, .text _, h => by simp [anchorHit] at h
  | sb, .elem i tag cls ch, h => by
      simp only [anchorHit, hasMatch, Bool.or_eq_true] at h ⊢
      rcases h with h1 | h1
      · exact Or.inl h1
      · exact Or.inr
          (hasMatchList_of_anchorHitList labels _ ch (Bool.and_eq_true_iff.mp h1).2)

theorem hasMatchList_of_anchorHitList (labels : List String) :
    ∀ (sb : Bool) (l : NodeList), anchorHitList labels sb l = true → hasMatchList labels sb l = true
  | sb, .nil, h => by simp [anchorHitList] at h
  | sb, .cons hd tl, h => by
      simp only [anchorHitList, hasMatchList, Bool.or_eq_true] at h ⊢
      rcases h with h1 | h1
      · exact Or.inl (hasMatch_of_anchorHit labels sb hd h1)
      · exact Or.inr (hasMatchList_of_anchorHitList labels sb tl h1)
end

mutual
/-- A subtree without any matching sidebar anchor is clean. -/
theorem clean_of_no_match (labels : List String) :
    ∀ (sb : Bool) (n : Node), hasMatch labels sb n = false → clean labels sb n = true
  | sb, .text _, _ => by simp [clean]
  | sb, .elem i tag cls ch, h => by
      simp only [hasMatch, Bool.or_eq_false_iff] at h
      simp only [clean, Bool.and_eq_true, Bool.not_eq_true']
      refine ⟨?_, cleanList_of_no_match labels _ ch h.2⟩
      apply Bool.eq_false_iff.mpr
      intro hc
      have hm := hasMatchList_of_anchorHitList labels _ ch (Bool.and_eq_true_iff.mp hc).2
      rw [h.2] at hm
      exact Bool.false_ne_true hm

theorem cleanList_of_no_match (labels : List String) :
    ∀ (sb : Bool) (l : NodeList), hasMatchList labels sb l = false → cleanList labels sb l = true
  | sb, .nil, _ => by simp [cleanList]
  | sb, .cons hd tl, h => by
      simp only [hasMatchList, Bool.or_eq_false_iff] at h
      simp only [cleanList, Bool.and_eq_true]
      exact ⟨clean_of_no_match labels sb hd h.1, cleanList_of_no_match labels sb tl h.2⟩
end

mutual
/-- Without any `.nav-sidebar` element there is no matching sidebar anchor:
the selector `.nav-sidebar a` selects nothing. -/
theorem no_match_of_no_sidebar (labels : List String) :
    ∀ n : Node, firstNavSidebarNode n = none → hasMatch labels false n = false
  | .text _, _ => by simp [hasMatch]
  | .elem i tag cls ch, h => by
      simp only [firstNavSidebarNode] at h
      cases hcls : cls.contains "nav-sidebar" with
      | true => rw [hcls] at h; simp at h
      | false =>
          rw [hcls] at h
          simp only [hasMatch, hcls, Bool.or_false, Bool.and_false, Bool.false_and,
            Bool.false_or]
          exact no_matchList_of_no_sidebar labels ch h

theorem no_matchList_of_no_sidebar (labels : List String) :
    ∀ l : NodeList, firstNavSidebarList l = none → hasMatchList labels false l = false
  | .nil, _ => by simp [hasMatchList]
  | .cons hd tl, h => by
      simp only [firstNavSidebarList] at h
      cases hh : firstNavSidebarNode hd with
      | some n => rw [hh] at h; exact absurd h (by simp)
      | none =>
          rw [hh] at h
          simp only [hasMatchList, Bool.or_eq_false_iff]
          exact ⟨no_match_of_no_sidebar labels hd hh, no_matchList_of_no_sidebar labels tl h⟩
end

mutual
/-- An identity that occurs in a tree is among its identities. -/
theorem mem_allIds_of_occursId :
    ∀ (i : Nat) (n : Node), occursId i n = true → i ∈ allIds n
  | i, .text _, h => by simp [occursId] at h
  | i, .elem j tag cls ch, h => by
      simp only [occursId, Bool.or_eq_true, beq_iff_eq] at h
      simp only [allIds, List.mem_cons]
      rcases h with h1 | h1
      · exact Or.inl h1.symm
      · exact Or.inr (mem_allIdsList_of_occursIdList i ch h1)

theorem mem_allIdsList_of_occursIdList :
    ∀ (i : Nat) (l : NodeList), occursIdList i l = true → i ∈ allIdsList l
  | i, .nil, h => by simp [occursIdList] at h
  | i, .cons hd tl, h => by
      simp only [occursIdList, Bool.or_eq_true] at h
      simp only [allIdsList, List.mem_append]
      rcases h with h1 | h1
      · exact Or.inl (mem_allIds_of_occursId i hd h1)
      · exact Or.inr (mem_allIdsList_of_occursIdList i tl h1)
end

mutual
/-- The removal loop introduces no node: an identity occurring afterwards
occurred before. -/
theorem occursId_of_prune (labels : List String) (i : Nat) :
    ∀ (sb : Bool) (n n' : Node), prune labels sb n = some n' →
      occursId i n' = true → occursId i n = true
  | sb, .text s, n', hp, h => by
      simp only [prune, Option.some_inj] at hp
      rw [← hp] at h
      exact h
  | sb, .elem j tag cls ch, n', hp, h => by
      simp only [prune] at hp
      by_cases hk : (tag == "li" && anchorHitList labels (sb || cls.contains "nav-sidebar") ch) = true
      · rw [if_pos hk] at hp; exact absurd hp (by simp)
      · rw [if_neg hk] at hp
        simp only [Option.some_inj] at hp
        rw [← hp] at h
        simp only [occursId, Bool.or_eq_true] at h ⊢
        rcases h with h1 | h1
        · exact Or.inl h1
        · exact Or.inr (occursIdList_of_pruneList labels i _ ch h1)

theorem occursIdList_of_pruneList (labels : List String) (i : Nat) :
    ∀ (sb : Bool) (l : NodeList), occursIdList i (pruneList labels sb l) = true →
      occursIdList i l = true
  | sb, .nil, h => by simp only [pruneList] at h; exact h
  | sb, .cons hd tl, h => by
      simp only [pruneList] at h
      cases hp : prune labels sb hd with
      | none =>
          rw [hp] at h
          simp only [occursIdList, Bool.or_eq_true]
          exact Or.inr (occursIdList_of_pruneList labels i sb tl h)
      | some hd' =>
          rw [hp] at h
          simp only [occursIdList, Bool.or_eq_true] at h ⊢
          rcases h with h1 | h1
          · exact Or.inl (occursId_of_prune labels i sb hd hd' hp h1)
          · exact Or.inr (occursIdList_of_pruneList labels i sb tl h1)
end

/-- An identity absent from a tree is absent from its pruning. -/
theorem not_occursOpt_of_not_mem (labels : List String) (i : Nat) (sb : Bool) (n : Node)
    (h : i ∉ allIds n) : occursIdOpt i (prune labels sb n) = false := by
  cases hp : prune labels sb n with
  | none => rfl
  | some n' =>
      simp only [occursIdOpt]
      apply Bool.eq_false_iff.mpr
      intro hocc
      exact h (mem_allIds_of_occursId i n (occursId_of_prune labels i sb n n' hp hocc))

/-- An identity absent from a sibling list is absent from its pruning. -/
theorem not_occursList_of_not_mem (labels : List String) (i : Nat) (sb : Bool) (l : NodeList)
    (h : i ∉ allIdsList l) : occursIdList i (pruneList labels sb l) = false := by
  apply Bool.eq_false_iff.mpr
  intro hocc
  exact h (mem_allIdsList_of_occursIdList i l (occursIdList_of_pruneList labels i sb l hocc))

mutual
/-- Removed-item identities are identities of the tree. -/
theorem mem_allIds_of_killer (labels : List String) (i : Nat) :
    ∀ (sb : Bool) (n : Node), i ∈ killerIds labels sb n → i ∈ allIds n
  | sb, .text _, h => by simp [killerIds] at h
  | sb, .elem j tag cls ch, h => by
      simp only [killerIds, List.mem_append] at h
      simp only [allIds, List.mem_cons]
      rcases h with h1 | h1
      · by_cases hk : (tag == "li" && anchorHitList labels (sb || cls.contains "nav-sidebar") ch) = true
        · rw [if_pos hk] at h1; simp only [List.mem_singleton] at h1; exact Or.inl h1
        · rw [if_neg hk] at h1; simp at h1
      · exact Or.inr (mem_allIdsList_of_killerList labels i _ ch h1)

theorem mem_allIdsList_of_killerList (labels : List String) (i : Nat) :
    ∀ (sb : Bool) (l : NodeList), i ∈ killerIdsList labels sb l → i ∈ allIdsList l
  | sb, .nil, h => by simp [killerIdsList] at h
  | sb, .cons hd tl, h => by
      simp only [killerIdsList, List.mem_append] at h
      simp only [allIdsList, List.mem_append]
      rcases h with h1 | h1
      · exact Or.inl (mem_allIds_of_killer labels i sb hd h1)
      · exact Or.inr (mem_allIdsList_of_killerList labels i sb tl h1)
end

mutual
/-- When identities are unambiguous, every removed-item identity is gone from
the pruned tree. -/
theorem kill_removed (labels : List String) (i : Nat) :
    ∀ (sb : Bool) (n : Node), (allIds n).Nodup → i ∈ killerIds labels sb n →
      occursIdOpt i (prune labels sb n) = false
  | sb, .text _, _, hk => by simp [killerIds] at hk
  | sb, .elem j tag cls ch, hnd, hk => by
      by_cases hkill : (tag == "li" && anchorHitList labels (sb || cls.contains "nav-sidebar") ch) = true
      · simp only [prune, if_pos hkill]; rfl
      · simp only [prune, if_neg hkill, occursIdOpt]
        simp only [killerIds, if_neg hkill, List.nil_append] at hk
        have hmem : i ∈ allIdsList ch := mem_allIdsList_of_killerList labels i _ ch hk
        simp only [allIds, List.nodup_cons] at hnd
        have hne : (j == i) = false := by
          apply beq_eq_false_iff_ne.mpr
          intro hji
          rw [hji] at hnd
          exact hnd.1 hmem
        simp only [occursId, hne, Bool.false_or]
        exact kill_removedList labels i _ ch hnd.2 hk

theorem kill_removedList (labels : List String) (i : Nat) :
    ∀ (sb : Bool) (l : NodeList), (allIdsList l).Nodup → i ∈ killerIdsList labels sb l →
      occursIdList i (pruneList labels sb l) = false
  | sb, .nil, _, hk => by simp [killerIdsList] at hk
  | sb, .cons hd tl, hnd, hk => by
      simp only [allIdsList, List.nodup_append] at hnd
      obtain ⟨hnd1, hnd2, hdisj⟩ := hnd
      simp only [killerIdsList, List.mem_append] at hk
      simp only [pruneList]
      rcases hk with hk1 | hk1
      · have hmemh : i ∈ allIds hd := mem_allIds_of_killer labels i sb hd hk1
        have h2 : occursIdList i (pruneList labels sb tl) = false :=
          not_occursList_of_not_mem labels i sb tl (fun hmt => hdisj hmemh hmt)
        have h1 : occursIdOpt i (prune labels sb hd) = false :=
          kill_removed labels i sb hd hnd1 hk1
        cases hp : prune labels sb hd with
        | none => exact h2
        | some hd' =>
            rw [hp] at h1
            simp only [occursIdOpt] at h1
            simp only [occursIdList, h1, Bool.false_or]
            exact h2
      · have hmemt : i ∈ allIdsList tl := mem_allIdsList_of_killerList labels i sb tl hk1
        have h1 : occursIdOpt i (prune labels sb hd) = false :=
          not_occursOpt_of_not_mem labels i sb hd (fun hmh => hdisj hmh hmemt)
        have h2 : occursIdList i (pruneList labels sb tl) = false :=
          kill_removedList labels i sb tl hnd2 hk1
        cases hp : prune labels sb hd with
        | none => exact h2
        | some hd' =>
            rw [hp] at h1
            simp only [occursIdOpt] at h1
            simp only [occursIdList, h1, Bool.false_or]
            exact h2
end

mutual
/-- Every node that is not inside a removed list item survives the loop. -/
theorem preserved (labels : List String) (i : Nat) :
    ∀ (sb : Bool) (n : Node), i ∈ allIds n → i ∉ doomedIds labels sb n →
      occursIdOpt i (prune labels sb n) = true
  | sb, .text _, hm, _ => by simp [allIds] at hm
  | sb, .elem j tag cls ch, hm, hdm => by
      by_cases hkill : (tag == "li" && anchorHitList labels (sb || cls.contains "nav-sidebar") ch) = true
      · exfalso
        apply hdm
        simp only [doomedIds, if_pos hkill]
        simpa [allIds] using hm
      · simp only [prune, if_neg hkill, occursIdOpt, occursId]
        simp only [doomedIds, if_neg hkill] at hdm
        simp only [allIds, List.mem_cons] at hm
        rcases hm with h1 | h1
        · simp [h1]
        · have hres := preservedList labels i _ ch h1 hdm
          simp only [Bool.or_eq_true]
          exact Or.inr hres

theorem preservedList (labels : List String) (i : Nat) :
    ∀ (sb : Bool) (l : NodeList), i ∈ allIdsList l → i ∉ doomedIdsList labels sb l →
      occursIdList i (pruneList labels sb l) = true
  | sb, .nil, hm, _ => by simp [allIdsList] at hm
  | sb, .cons hd tl, hm, hdm => by
      simp only [allIdsList, List.mem_append] at hm
      simp only [doomedIdsList, List.mem_append] at hdm
      obtain ⟨hdm1, hdm2⟩ := not_or.mp hdm
      simp only [pruneList]
      rcases hm with h1 | h1
      · have hp := preserved labels i sb hd h1 hdm1
        cases hpp : prune labels sb hd with
        | none => rw [hpp] at hp; simp [occursIdOpt] at hp
        | some hd' =>
            rw [hpp] at hp
            simp only [occursIdOpt] at hp
            simp only [occursIdList, hp, Bool.true_or]
      · have hp := preservedList labels i sb tl h1 hdm2
        cases hpp : prune labels sb hd with
        | none => exact hp
        | some hd' => simp only [occursIdList, hp, Bool.or_true]
end

/-- A node with a class is an element. -/
theorem isElem_of_hasClass (n : Node) (c : String) (h : hasClass n c = true) :
    isElem n = true := by
  cases n with
  | text s => simp [hasClass] at h
  | elem i tag cls ch => simp [isElem]

/-- A flat item whose normalized text matches is removed. -/
theorem prune_mkItem_match (labels : List String) (t : String)
    (hc : labels.contains (normText t) = true) :
    prune labels true (mkItem t) = none := by
  have hc' : normText t ∈ labels := List.elem_iff.mp hc
  simp [mkItem, prune, anchorHitList, anchorHit, textContentList, textContent,
    String.append_empty, hc']

/-- A flat item whose normalized text does not match is kept unchanged. -/
theorem prune_mkItem_nomatch (labels : List String) (t : String)
    (hc : labels.contains (normText t) = false) :
    prune labels true (mkItem t) = some (mkItem t) := by
  have hc' : normText t ∉ labels := by
    intro hm
    have helem : labels.contains (normText t) = true := List.elem_iff.mpr hm
    rw [hc] at helem
    exact Bool.false_ne_true helem
  simp [mkItem, prune, pruneList, anchorHitList, anchorHit, textContentList, textContent,
    String.append_empty, hc']

/-- On a flat sidebar the loop keeps exactly the items whose normalized
anchor text does not match. -/
theorem pruneList_mkItems (labels : List String) :
    ∀ items : List String,
      pruneList labels true (mkItems items)
        = mkItems (items.filter (fun s => !(labels.contains (normText s))))
  | [] => by simp [mkItems, pruneList]
  | t :: ts => by
      cases hc : labels.contains (normText t) with
      | true =>
          simp only [mkItems, pruneList, prune_mkItem_match labels t hc, List.filter_cons,
            hc, Bool.not_true, Bool.false_eq_true, if_false]
          exact pruneList_mkItems labels ts
      | false =>
          simp only [mkItems, pruneList, prune_mkItem_nomatch labels t hc, List.filter_cons,
            hc, Bool.not_false, if_true]
          rw [pruneList_mkItems labels ts]

/-- The loop on a document holding one flat sidebar filters its items. -/
theorem pruneDoc_flat (labels : List String) (items : List String) :
    pruneList labels false (flatDoc items)
      = flatDoc (items.filter (fun s => !(labels.contains (normText s)))) := by
  have h : pruneList labels false (flatDoc items)
      = NodeList.cons (Node.elem 0 "ul" ["nav-sidebar"] (pruneList labels true (mkItems items)))
          NodeList.nil := rfl
  rw [h, pruneList_mkItems labels items]
  rfl

/-- When the first handler's loop finds nothing to remove, the whole script
leaves the document alone, warns about nothing and raises nothing. -/
theorem runScript_id_of_clean (doc : Doc) (h : cleanList labels1 false doc = true) :
    runScript doc = ⟨doc, [], false⟩ := by
  have hp1 : pruneList labels1 false doc = doc := pruneList_of_clean labels1 false doc h
  have hc2 : cleanList labels2 false doc = true :=
    cleanList_mono labels1 labels2 labels2_sub false doc h
  have hp2 : pruneList labels2 false doc = doc := pruneList_of_clean labels2 false doc hc2
  show (⟨pruneList labels2 false (pruneList labels1 false doc), [], false⟩ : RunResult)
    = ⟨doc, [], false⟩
  rw [hp1, hp2]

/-- If the front part of a sibling list contains no exams header, the search
continues in the back part. -/
theorem findExamsList_append_none (sb : Bool) :
    ∀ (xs ys : NodeList), findExamsList sb xs = none →
      findExamsList sb (nlAppend xs ys) = findExamsList sb ys
  | .nil, ys, _ => rfl
  | .cons hd tl, ys, h => by
      simp only [findExamsList, nlAppend] at h ⊢
      by_cases hh : isExamsHeader sb hd = true
      · rw [if_pos hh] at h; exact absurd h (by simp)
      · rw [if_neg hh] at h ⊢
        cases hf : findExamsNode sb hd with
        | some r => rw [hf] at h; exact absurd h (by simp)
        | none =>
            rw [hf] at h
            exact findExamsList_append_none sb tl ys h

/-- Searching `sidebarDoc` finds the header and returns its next element
sibling. -/
theorem findExams_sidebarDoc (pre post : NodeList) (hs : String) (i : Nat) (sib : Node)
    (hpre : findExamsList true pre = none) (hhs : normText hs = "exams")
    (hsib : isElem sib = true) :
    findExamsList false (sidebarDoc pre hs i sib post) = some (some sib) := by
  have hhdr : isExamsHeader true (mkHeader i hs) = true := by
    simp [isExamsHeader, mkHeader, textContentList, textContent, String.append_empty, hhs]
  have htail : findExamsList true (.cons (mkHeader i hs) (.cons sib post)) = some (some sib) := by
    show (if isExamsHeader true (mkHeader i hs) = true then some (nextElem (.cons sib post))
          else match findExamsNode true (mkHeader i hs) with
               | some r => some r
               | none => findExamsList true (.cons sib post)) = some (some sib)
    rw [if_pos hhdr]
    simp [nextElem, hsib]
  have hnode : findExamsNode false (sidebarRoot pre hs i sib post) = some (some sib) := by
    show findExamsList (false || List.contains ["nav-sidebar"] "nav-sidebar")
        (nlAppend pre (.cons (mkHeader i hs) (.cons sib post))) = some (some sib)
    rw [show (false || List.contains ["nav-sidebar"] "nav-sidebar") = true from rfl]
    rw [findExamsList_append_none true pre _ hpre]
    exact htail
  have hroot : isExamsHeader false (sidebarRoot pre hs i sib post) = false := by
    simp [isExamsHeader, sidebarRoot]
  show (if isExamsHeader false (sidebarRoot pre hs i sib post) = true
        then some (nextElem .nil)
        else match findExamsNode false (sidebarRoot pre hs i sib post) with
             | some r => some r
             | none => findExamsList false .nil) = some (some sib)
  rw [if_neg (by intro hx; rw [hroot] at hx; exact Bool.false_ne_true hx)]
  rw [hnode]

/-- C1.  The claim quantifies over every DOM and asserts that every sidebar
item with a non-matching anchor remains.  That fails when a non-matching item
is nested inside a removed one: in `exDoc1` the "Reports" item `li#5` sits
inside `li#2`, whose own anchor is "Dashboard", so removing `li#2` also
removes the "Reports" item. -/
theorem C1_counterexample :
    labels1.contains (normText "Reports") = false ∧
    occursIdList 5 exDoc1 = true ∧
    occursIdList 5 ((handler1 exDoc1).doc) = false := by decide

/-- C1 (amended): the handler removes (exactly) the nearest enclosing `li`
of every matching sidebar anchor, and every node keeps its place unless it
lies inside such a removed item. -/
theorem C1_removes_matched_and_keeps_rest (doc : Doc) (hnd : (allIdsList doc).Nodup) :
    (∀ i, i ∈ killerIdsList labels1 false doc → occursIdList i ((handler1 doc).doc) = false) ∧
    (∀ i, i ∈ allIdsList doc → i ∉ doomedIdsList labels1 false doc →
        occursIdList i ((handler1 doc).doc) = true) := by
  constructor
  · intro i hk
    show occursIdList i (pruneList labels1 false doc) = false
    exact kill_removedList labels1 i false doc hnd hk
  · intro i hm hdm
    show occursIdList i (pruneList labels1 false doc) = true
    exact preservedList labels1 i false doc hm hdm

/-- C1 witness: on a flat sidebar with distinct identities the matched
"Dashboard" item `li#2` disappears and the unmatched "Reports" item `li#4`
survives. -/
theorem C1_witness :
    (allIdsList exDoc1w).Nodup ∧
    2 ∈ killerIdsList labels1 false exDoc1w ∧
    4 ∈ allIdsList exDoc1w ∧ 4 ∉ doomedIdsList labels1 false exDoc1w ∧
    occursIdList 2 ((handler1 exDoc1w).doc) = false ∧
    occursIdList 4 ((handler1 exDoc1w).doc) = true :=
  ⟨by decide, by decide, by decide, by decide,
   (C1_removes_matched_and_keeps_rest exDoc1w (by decide)).1 2 (by decide),
   (C1_removes_matched_and_keeps_rest exDoc1w (by decide)).2 4 (by decide) (by decide)⟩

/-- C2.  "For every anchor, it is removed if and only if its normalized text
matches" fails in the only-if-to-if direction: the matching anchor `a#2` of
`exDoc2` has no enclosing `li`, so nothing is removed although it matches. -/
theorem C2_counterexample :
    hasMatchList labels1 false exDoc2 = true ∧
    (handler1 exDoc2).doc = exDoc2 := by decide

/-- C2 (amended): matching is case-insensitive and whitespace-trimmed, and on
flat sidebars it governs removal exactly: the handler keeps precisely the
items whose trimmed, lowercased anchor text is not a configured label; in
particular " Dashboard " and "GROUPS" match and "Reports" does not. -/
theorem C2_normalized_match_governs_removal :
    (∀ items : List String,
        (handler1 (flatDoc items)).doc
          = flatDoc (items.filter (fun s => !(labels1.contains (normText s))))) ∧
    labels1.contains (normText " Dashboard ") = true ∧
    labels1.contains (normText "GROUPS") = true ∧
    labels1.contains (normText "Reports") = false ∧
    (handler1 (flatDoc [" Dashboard ", "GROUPS", "Reports"])).doc = flatDoc ["Reports"] := by
  refine ⟨?_, by decide, by decide, by decide, by decide⟩
  intro items
  show pruneList labels1 false (flatDoc items) = _
  exact pruneDoc_flat labels1 items

/-- C3.  With no `.nav-sidebar` element the handler finds nothing, removes
nothing and — contrary to the claim — logs no warning: `console.warn` runs
only in the `catch` block and nothing throws. -/
theorem C3_counterexample :
    firstNavSidebarList exDoc3 = none ∧
    (handler1 exDoc3).warnings = [] ∧
    (runScript exDoc3).warnings = [] := by decide

/-- C3 (amended): if the sidebar container is absent the handler leaves the
document unchanged and throws nothing, but it also logs nothing. -/
theorem C3_absent_sidebar_silent_no_throw (doc : Doc)
    (h : firstNavSidebarList doc = none) :
    runScript doc = ⟨doc, [], false⟩ := by
  have hm : hasMatchList labels1 false doc = false :=
    no_matchList_of_no_sidebar labels1 doc h
  exact runScript_id_of_clean doc (cleanList_of_no_match labels1 false doc hm)

/-- C3 witness. -/
theorem C3_witness :
    firstNavSidebarList exDoc3 = none ∧ runScript exDoc3 = ⟨exDoc3, [], false⟩ :=
  ⟨by decide, C3_absent_sidebar_silent_no_throw exDoc3 (by decide)⟩

/-- C4.  Running the handler twice is not idempotent in general: in `exDoc4`
the first run removes `li#4` (anchor "groups"), which changes the outer
anchor `a#3`'s text from "Dashboardgroups" to "Dashboard", so a second run
removes `li#2` as well. -/
theorem C4_counterexample :
    occursIdList 2 ((handler1 exDoc4).doc) = true ∧
    occursIdList 2 ((handler1 ((handler1 exDoc4).doc)).doc) = false := by decide

/-- C4 (amended): whenever the first run leaves no sidebar anchor with a
matching label and an enclosing `li` (as the claim's own justification
assumes, and as holds e.g. for flat sidebars), a second run changes
nothing. -/
theorem C4_second_run_identity_when_clean (doc : Doc)
    (h : cleanList labels1 false ((handler1 doc).doc) = true) :
    (handler1 ((handler1 doc).doc)).doc = (handler1 doc).doc := by
  show pruneList labels1 false ((handler1 doc).doc) = (handler1 doc).doc
  exact pruneList_of_clean labels1 false _ h

/-- C4 witness: on a flat sidebar the second run is the identity. -/
theorem C4_witness :
    cleanList labels1 false ((handler1 (flatDoc ["Dashboard", "Reports"])).doc) = true ∧
    (handler1 ((handler1 (flatDoc ["Dashboard", "Reports"])).doc)).doc
      = (handler1 (flatDoc ["Dashboard", "Reports"])).doc :=
  ⟨by decide, C4_second_run_identity_when_clean _ (by decide)⟩

/-- C5: a document with no matching sidebar anchor is returned unchanged,
with no warning and no exception. -/
theorem C5_no_match_no_change (doc : Doc) (h : hasMatchList labels1 false doc = false) :
    runScript doc = ⟨doc, [], false⟩ :=
  runScript_id_of_clean doc (cleanList_of_no_match labels1 false doc h)

/-- C5 witness: a sidebar holding only "Reports". -/
theorem C5_witness :
    hasMatchList labels1 false (flatDoc ["Reports"]) = false ∧
    runScript (flatDoc ["Reports"]) = ⟨flatDoc ["Reports"], [], false⟩ :=
  ⟨by decide, C5_no_match_no_change (flatDoc ["Reports"]) (by decide)⟩

/-- C6: the `try`/`catch` wrapper never re-raises; when the body throws, the
warning is logged and the caller sees the fallback document; the script as a
whole never raises. -/
theorem C6_catch_logs_and_never_propagates :
    (∀ (d : Doc) (b : Except DomError Doc), (tryCatchWarn d b).raised = false) ∧
    (∀ (d : Doc) (b : Except DomError Doc) (e : DomError), b = .error e →
        (tryCatchWarn d b).warnings = [warnMsg] ∧ (tryCatchWarn d b).doc = d) ∧
    (∀ doc : Doc, (runScript doc).raised = false ∧ (handler1 doc).raised = false ∧
        (handler2 doc).raised = false) := by
  refine ⟨?_, ?_, ?_⟩
  · intro d b; cases b <;> rfl
  · intro d b e hb; subst hb; exact ⟨rfl, rfl⟩
  · intro doc; exact ⟨rfl, rfl, rfl⟩

/-- C6 witness: a thrown error is caught, logged, and not propagated. -/
theorem C6_witness :
    (tryCatchWarn NodeList.nil (Except.error (DomError.mk "boom"))).warnings = [warnMsg] ∧
    (tryCatchWarn NodeList.nil (Except.error (DomError.mk "boom"))).doc = NodeList.nil ∧
    (runScript NodeList.nil).raised = false :=
  ⟨(C6_catch_logs_and_never_propagates.2.1 NodeList.nil _ (DomError.mk "boom") rfl).1,
   (C6_catch_logs_and_never_propagates.2.1 NodeList.nil _ (DomError.mk "boom") rfl).2,
   (C6_catch_logs_and_never_propagates.2.2 NodeList.nil).1⟩

/-- C7: a header whose trimmed, lowercased text is "exams" makes its next
element sibling the insertion target when that sibling carries
`nav-treeview`; otherwise, and when no such header exists, the target falls
back to the first `.nav-sidebar` element. -/
theorem C7_section_locator :
    (∀ (pre post : NodeList) (hs : String) (i : Nat) (sib : Node),
        findExamsList true pre = none → normText hs = "exams" →
        hasClass sib "nav-treeview" = true →
        locateUL (sidebarDoc pre hs i sib post) = some sib) ∧
    (∀ (pre post : NodeList) (hs : String) (i : Nat) (sib : Node),
        findExamsList true pre = none → normText hs = "exams" →
        isElem sib = true → hasClass sib "nav-treeview" = false →
        locateUL (sidebarDoc pre hs i sib post) = some (sidebarRoot pre hs i sib post)) ∧
    (∀ doc : Doc, findExamsList false doc = none →
        locateUL doc = firstNavSidebarList doc) := by
  refine ⟨?_, ?_, ?_⟩
  · intro pre post hs i sib hpre hhs hcls
    have hfind := findExams_sidebarDoc pre post hs i sib hpre hhs
      (isElem_of_hasClass sib _ hcls)
    simp only [locateUL, hfind]
    rw [if_pos hcls]
  · intro pre post hs i sib hpre hhs hsib hcls
    have hfind := findExams_sidebarDoc pre post hs i sib hpre hhs hsib
    simp only [locateUL, hfind]
    rw [if_neg (by intro hx; rw [hcls] at hx; exact Bool.false_ne_true hx)]
    rfl
  · intro doc h
    simp only [locateUL, h]

/-- C7 witness: a sidebar `[item "Reports", header "Exams", ul.nav-treeview]`
yields the `nav-treeview` list as the target. -/
theorem C7_witness :
    findExamsList true (.cons (mkItem "Reports") .nil) = none ∧
    normText "Exams" = "exams" ∧
    hasClass (Node.elem 8 "ul" ["nav-treeview"] .nil) "nav-treeview" = true ∧
    locateUL (sidebarDoc (.cons (mkItem "Reports") .nil) "Exams" 7
        (Node.elem 8 "ul" ["nav-treeview"] .nil) .nil)
      = some (Node.elem 8 "ul" ["nav-treeview"] .nil) :=
  ⟨by decide, by decide, by decide,
   C7_section_locator.1 (.cons (mkItem "Reports") .nil) .nil "Exams" 7
     (Node.elem 8 "ul" ["nav-treeview"] .nil) (by decide) (by decide) (by decide)⟩

/-- C8: `addItem` and the section locator are dead code — the handler, and
the whole script, compute the same result with them removed; no navigation
item is ever appended. -/
theorem C8_addItem_dead_code :
    (∀ doc : Doc, handler1 doc = handler1WithoutDeadCode doc) ∧
    (∀ doc : Doc, runScript doc = runScriptWithoutDeadCode doc) :=
  ⟨fun _ => rfl, fun _ => rfl⟩

/-- C10: when no matching sidebar anchor has an enclosing `li` — `closest`
fails and the guarded `if (li)` skips removal — the whole DOM is left in
place and no error is raised. -/
theorem C10_no_li_guard (doc : Doc) (h : cleanList labels1 false doc = true) :
    runScript doc = ⟨doc, [], false⟩ :=
  runScript_id_of_clean doc h

/-- C10 witness: a matching "Groups" anchor with no `li` ancestor survives
untouched. -/
theorem C10_witness :
    hasMatchList labels1 false exDoc10 = true ∧
    cleanList labels1 false exDoc10 = true ∧
    runScript exDoc10 = ⟨exDoc10, [], false⟩ :=
  ⟨by decide, by decide, C10_no_li_guard exDoc10 (by decide)⟩
